import Mathlib

/-!
# Verification of the VIP-Vanity claim handler

A shallow embedding of the `onCommand` handler of `src/bot.go` from the
SB-tools/VIP-Vanity repository. The handler validates two user-supplied
strings, acknowledges the command, reads the alias ownership metadata from a
remote key-value store, and conditionally writes the new value. We model the
handler as a pure function from the interaction inputs and an environment of
network responses to an ordered trace of observable events together with a
terminal outcome, and prove properties of that function.

Network calls are modelled by trace events; each network event denotes the
request being issued, with the handler suspended until the response recorded
in the environment arrives. Unicode simple case foldings outside A-Z are not
modelled by the lowercasing function; no claim settled here depends on them.
-/

namespace VIPVanity

/-- Base URL of the metadata endpoint (`metadataApiURL` in `src/bot.go`). -/
def metadataApiURL : String :=
  "https://api.cloudflare.com/client/v4/accounts/6dccc8a823380a32fe8792904b2cd886/storage/kv/namespaces/b44b93e4cc174443aca099a3763b29ff/metadata/"

/-- Base URL of the values endpoint (`valuesApiURL` in `src/bot.go`). -/
def valuesApiURL : String :=
  "https://api.cloudflare.com/client/v4/accounts/6dccc8a823380a32fe8792904b2cd886/storage/kv/namespaces/b44b93e4cc174443aca099a3763b29ff/values/"

/-- Membership in the character class `[a-f0-9]` of `publicIDRegex`. -/
def isLowerHexChar (c : Char) : Bool :=
  (('0' ≤ c) && (c ≤ '9')) || (('a' ≤ c) && (c ≤ 'f'))

/-- Membership in the character class `[a-zA-Z0-9]` of `vanityRegex`. -/
def isAlnumChar (c : Char) : Bool :=
  (('0' ≤ c) && (c ≤ '9')) || (('a' ≤ c) && (c ≤ 'z')) || (('A' ≤ c) && (c ≤ 'Z'))

/-- Matching of the anchored Go regular expression `^[a-f0-9]+$`
(`publicIDRegex.MatchString` at line 64 of `src/bot.go`): every character is
lowercase hex and the string is nonempty. -/
def publicIDMatch (s : String) : Bool :=
  (!s.isEmpty) && s.toList.all isLowerHexChar

/-- Matching of the anchored Go regular expression `^[a-zA-Z0-9]+$`
(`vanityRegex.MatchString` at line 72 of `src/bot.go`): every character is an
ASCII alphanumeric and the string is nonempty. Note the Go pattern has no
upper length bound. -/
def vanityMatch (s : String) : Bool :=
  (!s.isEmpty) && s.toList.all isAlnumChar

/-- ASCII lowercasing of one character, as `strings.ToLower` acts on A-Z. -/
def asciiLowerChar (c : Char) : Char :=
  if (('A' ≤ c) && (c ≤ 'Z')) then Char.ofNat (c.toNat + 32) else c

/-- `strings.ToLower` (line 71 of `src/bot.go`), restricted to ASCII case
mapping. -/
def asciiToLower (s : String) : String :=
  String.mk (s.toList.map asciiLowerChar)

/-- The validation-failure reply for a bad public user id (lines 65-68). -/
def invalidUserIDMsg : String := "Provided user id is not a valid public user id."

/-- The validation-failure reply for a bad vanity (lines 73-76). -/
def invalidVanityMsg : String :=
  "Provided vanity is not in a valid format. Use letters and numbers only up to 32 characters."

/-- The conflict follow-up text (line 103), with the owner id rendered in
decimal by the %d verb. -/
def conflictMsg (owner : Nat) : String :=
  "This vanity is already taken by <@" ++ toString owner ++ ">."

/-- The success follow-up text (line 126); the %[2]s verb reuses the public
user id for the lookup link. -/
def successMsg (vanity pubUserID : String) : String :=
  "Vanity `" ++ vanity ++ "` associated with user id [`" ++ pubUserID ++
    "`](https://sb.ltn.fi/userid/" ++ pubUserID ++ ") has been successfully added."

/-- The metadata form field written at line 110:
fmt.Sprintf of the JSON object with single key id holding the decimal
requester id (snowflake rendered by its String method). -/
def metadataJSON (userID : Nat) : String :=
  "\x7b\"id\":\"" ++ toString userID ++ "\"\x7d"

/-- Log messages emitted by the handler (the dynamic error value is omitted). -/
def errMetaCreate : String := "there was an error while creating a new metadata request: "

/-- Log message at line 90. -/
def errMetaRun : String := "there was an error while running a metadata request: "

/-- Log message at line 98. -/
def errMetaDecode : String := "there was an error while decoding the metadata response: "

/-- Log message at line 114. -/
def errValueCreate : String := "there was an error while creating a new value request: "

/-- Log message at line 121. -/
def errValueRun : String := "there was an error while running a value request: "

/-- Log message at line 128, with the status code rendered in decimal. -/
def warnValueCode (code : Nat) : String :=
  "received code " ++ toString code ++ " after running a value request"

/-- Observable events of one handler invocation, in program order.
`createMessage` is the immediate interaction reply used for validation
failures; `deferAck` is the deferred acknowledgment (line 79); `metaGet` and
`valuePut` are the two store requests carrying their full URL (and for the
write, the two multipart form fields); the two follow-up constructors
correspond to the two `createFollowup` call sites; log events are not
user-visible. -/
inductive Event where
  | createMessage (content : String) (ephemeral : Bool)
  | deferAck
  | metaGet (url : String)
  | valuePut (url : String) (value : String) (metadata : String)
  | conflictFollowup (content : String)
  | successFollowup (content : String)
  | logError (msg : String)
  | logWarn (msg : String)
deriving DecidableEq

/-- The terminal branch a single invocation ends in, labelling the return
points of `onCommand`. -/
inductive Outcome where
  | rejectedUserID
  | rejectedVanity
  | abandonedMetaCreate
  | abandonedMetaTransport
  | abandonedMetaDecode
  | conflict (owner : Nat)
  | abandonedValueCreate
  | abandonedValueTransport
  | claimed
  | writeFailed (code : Nat)
deriving DecidableEq

/-- The user-supplied inputs of one slash-command invocation: the two string
options and the numeric account id of the invoking user
(`event.User().ID`, a 64-bit snowflake, modelled as `Nat`; only equality and
decimal rendering are used). -/
structure Interaction where
  pubUserID : String
  vanityRaw : String
  userID : Nat
deriving DecidableEq

/-- Result of the metadata GET as seen by the handler: the HTTP status code,
and the result of JSON-decoding the body into `MetadataResponse` when the
handler attempts it (`none` models a decode error, `some owner` a decoded
`response.Result.ID`). -/
structure MetaResponse where
  status : Nat
  decoded : Option Nat
deriving DecidableEq

/-- The network environment of one invocation: whether each
`http.NewRequest` call fails, and the response of each store call, `none`
standing for a transport error of `client.Do`. -/
structure Env where
  metaReqErr : Bool
  metaResult : Option MetaResponse
  valueReqErr : Bool
  valueResult : Option Nat
deriving DecidableEq

/-- Lines 107-129 of `src/bot.go`: build the multipart body (fields `value`
and `metadata`), PUT it to the values endpoint for the alias key, and react
to the response status. -/
def writePhase (i : Interaction) (env : Env) (vanity : String) : List Event × Outcome :=
  if env.valueReqErr then
    ([Event.logError errValueCreate], Outcome.abandonedValueCreate)
  else
    match env.valueResult with
    | none =>
        ([Event.valuePut (valuesApiURL ++ vanity) i.pubUserID (metadataJSON i.userID),
          Event.logError errValueRun], Outcome.abandonedValueTransport)
    | some code =>
        if code = 200 then
          ([Event.valuePut (valuesApiURL ++ vanity) i.pubUserID (metadataJSON i.userID),
            Event.successFollowup (successMsg vanity i.pubUserID)], Outcome.claimed)
        else
          ([Event.valuePut (valuesApiURL ++ vanity) i.pubUserID (metadataJSON i.userID),
            Event.logWarn (warnValueCode code)], Outcome.writeFailed code)

/-- The `onCommand` handler (lines 61-130 of `src/bot.go`) as a pure function
from the interaction inputs and the network environment to the ordered trace
of observable events and the terminal outcome. -/
def onCommandRun (i : Interaction) (env : Env) : List Event × Outcome :=
  if !(publicIDMatch i.pubUserID) then
    ([Event.createMessage invalidUserIDMsg true], Outcome.rejectedUserID)
  else
    let vanity := asciiToLower i.vanityRaw
    if !(vanityMatch vanity) then
      ([Event.createMessage invalidVanityMsg true], Outcome.rejectedVanity)
    else if env.metaReqErr then
      ([Event.deferAck, Event.logError errMetaCreate], Outcome.abandonedMetaCreate)
    else
      match env.metaResult with
      | none =>
          ([Event.deferAck, Event.metaGet (metadataApiURL ++ vanity),
            Event.logError errMetaRun], Outcome.abandonedMetaTransport)
      | some r =>
          if r.status = 200 then
            match r.decoded with
            | none =>
                ([Event.deferAck, Event.metaGet (metadataApiURL ++ vanity),
                  Event.logError errMetaDecode], Outcome.abandonedMetaDecode)
            | some ownerID =>
                if ownerID ≠ i.userID then
                  ([Event.deferAck, Event.metaGet (metadataApiURL ++ vanity),
                    Event.conflictFollowup (conflictMsg ownerID)], Outcome.conflict ownerID)
                else
                  ((Event.deferAck :: Event.metaGet (metadataApiURL ++ vanity) ::
                    (writePhase i env vanity).1), (writePhase i env vanity).2)
          else
            ((Event.deferAck :: Event.metaGet (metadataApiURL ++ vanity) ::
              (writePhase i env vanity).1), (writePhase i env vanity).2)

/-- The external store, keyed by the value-endpoint URL of an alias, holding
the written pair of form fields (value, metadata). -/
def Store : Type := String → Option (String × String)

/-- The effect of one invocation on the store, assuming the store honours the
write contract: the PUT overwrites the record at its URL exactly when the
store answered it with status 200 (the `claimed` outcome). -/
def runStore (st : Store) (i : Interaction) (env : Env) : Store :=
  match onCommandRun i env with
  | (tr, Outcome.claimed) =>
      tr.foldl (fun s e =>
        match e with
        | Event.valuePut url v m => fun k => if k = url then some (v, m) else s k
        | _ => s) st
  | _ => st

/-- The alias rule as the specification states it: after lowercasing, ASCII
alphanumerics only, of length 1 to 32. Written from the spec wording, to be
compared with `vanityMatch`, the rule the code enforces. -/
def specAliasPattern (s : String) : Bool :=
  (1 ≤ s.length && s.length ≤ 32) && s.toList.all isAlnumChar

/-- Recognizer of the deferred-acknowledgment event. -/
def isAck : Event → Bool
  | Event.deferAck => true
  | _ => false

/-- Recognizer of the metadata-read event. -/
def isMetaGet : Event → Bool
  | Event.metaGet _ => true
  | _ => false

/-- Recognizer of the value-write event. -/
def isValuePut : Event → Bool
  | Event.valuePut _ _ _ => true
  | _ => false

/-- `precededBy p q tr` holds when no q-event occurs in `tr` before some
p-event has occurred: scanning left to right, meeting a q-event first
refutes it, meeting a p-event first settles it. -/
def precededBy (p q : Event → Bool) : List Event → Bool
  | [] => true
  | e :: tr => if q e then false else (p e || precededBy p q tr)


/-- Case enumeration of `writePhase`. -/
lemma writePhase_shape (i : Interaction) (env : Env) (v : String) :
    (env.valueReqErr = true ∧
      writePhase i env v = ([Event.logError errValueCreate], Outcome.abandonedValueCreate)) ∨
    (env.valueReqErr = false ∧ env.valueResult = none ∧
      writePhase i env v =
        ([Event.valuePut (valuesApiURL ++ v) i.pubUserID (metadataJSON i.userID),
          Event.logError errValueRun], Outcome.abandonedValueTransport)) ∨
    (env.valueReqErr = false ∧ env.valueResult = some 200 ∧
      writePhase i env v =
        ([Event.valuePut (valuesApiURL ++ v) i.pubUserID (metadataJSON i.userID),
          Event.successFollowup (successMsg v i.pubUserID)], Outcome.claimed)) ∨
    (∃ code, env.valueReqErr = false ∧ env.valueResult = some code ∧ code ≠ 200 ∧
      writePhase i env v =
        ([Event.valuePut (valuesApiURL ++ v) i.pubUserID (metadataJSON i.userID),
          Event.logWarn (warnValueCode code)], Outcome.writeFailed code)) := by
  cases hre : env.valueReqErr
  · cases hvr : env.valueResult with
    | none => exact Or.inr (Or.inl ⟨rfl, rfl, by simp [writePhase, hre, hvr]⟩)
    | some code =>
      by_cases hc : code = 200
      · subst hc
        exact Or.inr (Or.inr (Or.inl ⟨rfl, rfl, by simp [writePhase, hre, hvr]⟩))
      · exact Or.inr (Or.inr (Or.inr ⟨code, rfl, rfl, hc, by simp [writePhase, hre, hvr, hc]⟩))
  · exact Or.inl ⟨rfl, by simp [writePhase, hre]⟩

/-- Case enumeration of `onCommandRun`. -/
lemma onCommandRun_shape (i : Interaction) (env : Env) :
    (publicIDMatch i.pubUserID = false ∧
      onCommandRun i env = ([Event.createMessage invalidUserIDMsg true], Outcome.rejectedUserID)) ∨
    (publicIDMatch i.pubUserID = true ∧ vanityMatch (asciiToLower i.vanityRaw) = false ∧
      onCommandRun i env = ([Event.createMessage invalidVanityMsg true], Outcome.rejectedVanity)) ∨
    (publicIDMatch i.pubUserID = true ∧ vanityMatch (asciiToLower i.vanityRaw) = true ∧
     env.metaReqErr = true ∧
      onCommandRun i env = ([Event.deferAck, Event.logError errMetaCreate],
        Outcome.abandonedMetaCreate)) ∨
    (publicIDMatch i.pubUserID = true ∧ vanityMatch (asciiToLower i.vanityRaw) = true ∧
     env.metaReqErr = false ∧ env.metaResult = none ∧
      onCommandRun i env = ([Event.deferAck,
        Event.metaGet (metadataApiURL ++ asciiToLower i.vanityRaw),
        Event.logError errMetaRun], Outcome.abandonedMetaTransport)) ∨
    (∃ r, publicIDMatch i.pubUserID = true ∧ vanityMatch (asciiToLower i.vanityRaw) = true ∧
     env.metaReqErr = false ∧ env.metaResult = some r ∧ r.status = 200 ∧ r.decoded = none ∧
      onCommandRun i env = ([Event.deferAck,
        Event.metaGet (metadataApiURL ++ asciiToLower i.vanityRaw),
        Event.logError errMetaDecode], Outcome.abandonedMetaDecode)) ∨
    (∃ r owner, publicIDMatch i.pubUserID = true ∧ vanityMatch (asciiToLower i.vanityRaw) = true ∧
     env.metaReqErr = false ∧ env.metaResult = some r ∧ r.status = 200 ∧
     r.decoded = some owner ∧ owner ≠ i.userID ∧
      onCommandRun i env = ([Event.deferAck,
        Event.metaGet (metadataApiURL ++ asciiToLower i.vanityRaw),
        Event.conflictFollowup (conflictMsg owner)], Outcome.conflict owner)) ∨
    (∃ r, publicIDMatch i.pubUserID = true ∧ vanityMatch (asciiToLower i.vanityRaw) = true ∧
     env.metaReqErr = false ∧ env.metaResult = some r ∧
     (r.status ≠ 200 ∨ (r.status = 200 ∧ r.decoded = some i.userID)) ∧
      onCommandRun i env = (Event.deferAck ::
        Event.metaGet (metadataApiURL ++ asciiToLower i.vanityRaw) ::
        (writePhase i env (asciiToLower i.vanityRaw)).1,
        (writePhase i env (asciiToLower i.vanityRaw)).2)) := by
  cases hpub : publicIDMatch i.pubUserID
  · exact Or.inl ⟨rfl, by simp [onCommandRun, hpub]⟩
  · cases hvan : vanityMatch (asciiToLower i.vanityRaw)
    · exact Or.inr (Or.inl ⟨rfl, rfl, by simp [onCommandRun, hpub, hvan]⟩)
    · cases hmre : env.metaReqErr
      · cases hmr : env.metaResult with
        | none =>
          refine Or.inr (Or.inr (Or.inr (Or.inl ⟨rfl, rfl, rfl, rfl, ?_⟩)))
          simp [onCommandRun, hpub, hvan, hmre, hmr]
        | some r =>
          by_cases hs : r.status = 200
          · cases hd : r.decoded with
            | none =>
              refine Or.inr (Or.inr (Or.inr (Or.inr (Or.inl ⟨r, rfl, rfl, rfl, rfl, hs, hd, ?_⟩))))
              simp [onCommandRun, hpub, hvan, hmre, hmr, hs, hd]
            | some owner =>
              by_cases how : owner = i.userID
              · subst how
                refine Or.inr (Or.inr (Or.inr (Or.inr (Or.inr (Or.inr
                  ⟨r, rfl, rfl, rfl, rfl, Or.inr ⟨hs, hd⟩, ?_⟩)))))
                simp [onCommandRun, hpub, hvan, hmre, hmr, hs, hd]
              · refine Or.inr (Or.inr (Or.inr (Or.inr (Or.inr (Or.inl
                  ⟨r, owner, rfl, rfl, rfl, rfl, hs, hd, how, ?_⟩)))))
                simp [onCommandRun, hpub, hvan, hmre, hmr, hs, hd, how]
          · refine Or.inr (Or.inr (Or.inr (Or.inr (Or.inr (Or.inr
              ⟨r, rfl, rfl, rfl, rfl, Or.inl hs, ?_⟩)))))
            simp [onCommandRun, hpub, hvan, hmre, hmr, hs]
      · exact Or.inr (Or.inr (Or.inl ⟨rfl, rfl, rfl, by simp [onCommandRun, hpub, hvan, hmre]⟩))


/-- If the handler reached the metadata read and the resolver result lets it
proceed (non-200 status, or a decoded owner equal to the requester), the run
continues into the write phase. -/
lemma onCommandRun_write_eq (i : Interaction) (env : Env) (r : MetaResponse)
    (hpub : publicIDMatch i.pubUserID = true)
    (hvan : vanityMatch (asciiToLower i.vanityRaw) = true)
    (hcr : env.metaReqErr = false)
    (hm : env.metaResult = some r)
    (hproceed : r.status ≠ 200 ∨ r.decoded = some i.userID) :
    onCommandRun i env = (Event.deferAck ::
      Event.metaGet (metadataApiURL ++ asciiToLower i.vanityRaw) ::
      (writePhase i env (asciiToLower i.vanityRaw)).1,
      (writePhase i env (asciiToLower i.vanityRaw)).2) := by
  by_cases hs : r.status = 200
  · rcases hproceed with h | hd
    · exact absurd hs h
    · simp [onCommandRun, hpub, hvan, hcr, hm, hs, hd]
  · simp [onCommandRun, hpub, hvan, hcr, hm, hs]

/-- Claim C3: when the resolver returns 200 with an owner different from the
requester, the run is exactly acknowledge, metadata read, and one conflict
follow-up naming the existing owner: no value write is issued. -/
theorem claim3_conflict_skips_write (i : Interaction) (env : Env) (r : MetaResponse) (owner : Nat)
    (hpub : publicIDMatch i.pubUserID = true)
    (hvan : vanityMatch (asciiToLower i.vanityRaw) = true)
    (hcr : env.metaReqErr = false)
    (hm : env.metaResult = some r)
    (hst : r.status = 200)
    (hdec : r.decoded = some owner)
    (hne : owner ≠ i.userID) :
    onCommandRun i env = ([Event.deferAck,
      Event.metaGet (metadataApiURL ++ asciiToLower i.vanityRaw),
      Event.conflictFollowup (conflictMsg owner)], Outcome.conflict owner) := by
  simp [onCommandRun, hpub, hvan, hcr, hm, hst, hdec, hne]

theorem claim3_witness :
    onCommandRun ⟨"aa", "abc", 5⟩ ⟨false, some ⟨200, some 9⟩, false, some 200⟩ =
      ([Event.deferAck, Event.metaGet (metadataApiURL ++ asciiToLower "abc"),
        Event.conflictFollowup (conflictMsg 9)], Outcome.conflict 9) :=
  claim3_conflict_skips_write _ _ ⟨200, some 9⟩ 9 (by decide) (by decide) rfl rfl rfl rfl (by decide)


set_option maxRecDepth 4000 in
/-- Claim C1 (failing input): the alias of 33 letters a passes the validator
of the code (the Go pattern `^[a-zA-Z0-9]+$` has no upper length bound),
fails the spec pattern of length at most 32, and the handler proceeds past
validation to the metadata read. -/
theorem claim1_overlong_alias_accepted :
    vanityMatch (asciiToLower (String.mk (List.replicate 33 'a'))) = true ∧
    specAliasPattern (String.mk (List.replicate 33 'a')) = false ∧
    Event.metaGet (metadataApiURL ++ String.mk (List.replicate 33 'a')) ∈
      (onCommandRun ⟨"deadbeef", String.mk (List.replicate 33 'a'), 5⟩
        ⟨false, some ⟨404, none⟩, false, some 200⟩).1 := by
  decide

/-- Claim C2 (counterexample): a metadata response with status 500 — neither
success nor not-found — does not abandon the attempt: the value write is
issued and the run ends claimed. -/
theorem claim2_counterexample_server_error_still_writes :
    (onCommandRun ⟨"deadbeef", "abc", 5⟩ ⟨false, some ⟨500, none⟩, false, some 200⟩).2 =
      Outcome.claimed ∧
    Event.valuePut (valuesApiURL ++ "abc") "deadbeef" (metadataJSON 5) ∈
      (onCommandRun ⟨"deadbeef", "abc", 5⟩ ⟨false, some ⟨500, none⟩, false, some 200⟩).1 := by
  decide

/-- Claim C2 (amended): only a transport error of the metadata request, or a
decode failure of a 200 response, abandons the attempt with just a log entry
(no value write, no user-facing message); every non-200 status — not only
not-found — is treated as unclaimed and the value write is issued. -/
theorem claim2_amended_meta_error_handling (i : Interaction) (env : Env)
    (hpub : publicIDMatch i.pubUserID = true)
    (hvan : vanityMatch (asciiToLower i.vanityRaw) = true)
    (hcr : env.metaReqErr = false) :
    (env.metaResult = none →
      onCommandRun i env = ([Event.deferAck,
        Event.metaGet (metadataApiURL ++ asciiToLower i.vanityRaw),
        Event.logError errMetaRun], Outcome.abandonedMetaTransport)) ∧
    (∀ r, env.metaResult = some r → r.status = 200 → r.decoded = none →
      onCommandRun i env = ([Event.deferAck,
        Event.metaGet (metadataApiURL ++ asciiToLower i.vanityRaw),
        Event.logError errMetaDecode], Outcome.abandonedMetaDecode)) ∧
    (∀ r, env.metaResult = some r → r.status ≠ 200 → env.valueReqErr = false →
      Event.valuePut (valuesApiURL ++ asciiToLower i.vanityRaw) i.pubUserID (metadataJSON i.userID)
        ∈ (onCommandRun i env).1) := by
  refine ⟨fun hm => by simp [onCommandRun, hpub, hvan, hcr, hm],
          fun r hm hs hd => by simp [onCommandRun, hpub, hvan, hcr, hm, hs, hd],
          fun r hm hs hwr => ?_⟩
  rw [onCommandRun_write_eq i env r hpub hvan hcr hm (Or.inl hs)]
  rcases writePhase_shape i env (asciiToLower i.vanityRaw) with ⟨hv, _⟩ | ⟨_, _, hw⟩ |
    ⟨_, _, hw⟩ | ⟨code, _, _, _, hw⟩
  · simp [hwr] at hv
  · rw [hw]; simp
  · rw [hw]; simp
  · rw [hw]; simp

theorem claim2_amended_witness :
    onCommandRun ⟨"deadbeef", "abc", 5⟩ ⟨false, none, false, some 200⟩ =
      ([Event.deferAck, Event.metaGet (metadataApiURL ++ asciiToLower "abc"),
        Event.logError errMetaRun], Outcome.abandonedMetaTransport) :=
  (claim2_amended_meta_error_handling _ _ (by decide) (by decide) rfl).1 rfl

/-- Claim C4: once the write step is reached and the store answers the PUT,
the user is told of success exactly when the status is 200; any other status
ends the run as a logged write failure with no user-facing message and no
retry — each full trace holds exactly one value write. -/
theorem claim4_write_reports_success_iff_OK (i : Interaction) (env : Env) (r : MetaResponse)
    (code : Nat)
    (hpub : publicIDMatch i.pubUserID = true)
    (hvan : vanityMatch (asciiToLower i.vanityRaw) = true)
    (hcr : env.metaReqErr = false)
    (hm : env.metaResult = some r)
    (hproceed : r.status ≠ 200 ∨ r.decoded = some i.userID)
    (hwr : env.valueReqErr = false)
    (hv : env.valueResult = some code) :
    (code = 200 → onCommandRun i env = ([Event.deferAck,
        Event.metaGet (metadataApiURL ++ asciiToLower i.vanityRaw),
        Event.valuePut (valuesApiURL ++ asciiToLower i.vanityRaw) i.pubUserID
          (metadataJSON i.userID),
        Event.successFollowup (successMsg (asciiToLower i.vanityRaw) i.pubUserID)],
        Outcome.claimed)) ∧
    (code ≠ 200 → onCommandRun i env = ([Event.deferAck,
        Event.metaGet (metadataApiURL ++ asciiToLower i.vanityRaw),
        Event.valuePut (valuesApiURL ++ asciiToLower i.vanityRaw) i.pubUserID
          (metadataJSON i.userID),
        Event.logWarn (warnValueCode code)], Outcome.writeFailed code)) := by
  have he := onCommandRun_write_eq i env r hpub hvan hcr hm hproceed
  constructor
  · intro h200
    subst h200
    rw [he]
    simp [writePhase, hwr, hv]
  · intro hne
    rw [he]
    simp [writePhase, hwr, hv, hne]

theorem claim4_witness :
    (onCommandRun ⟨"deadbeef", "abc", 5⟩ ⟨false, some ⟨404, none⟩, false, some 200⟩ =
      ([Event.deferAck, Event.metaGet (metadataApiURL ++ asciiToLower "abc"),
        Event.valuePut (valuesApiURL ++ asciiToLower "abc") "deadbeef" (metadataJSON 5),
        Event.successFollowup (successMsg (asciiToLower "abc") "deadbeef")],
        Outcome.claimed)) ∧
    (onCommandRun ⟨"deadbeef", "abc", 5⟩ ⟨false, some ⟨404, none⟩, false, some 503⟩ =
      ([Event.deferAck, Event.metaGet (metadataApiURL ++ asciiToLower "abc"),
        Event.valuePut (valuesApiURL ++ asciiToLower "abc") "deadbeef" (metadataJSON 5),
        Event.logWarn (warnValueCode 503)], Outcome.writeFailed 503)) :=
  ⟨(claim4_write_reports_success_iff_OK _ _ ⟨404, none⟩ 200 (by decide) (by decide) rfl rfl
      (by decide) rfl rfl).1 rfl,
   (claim4_write_reports_success_iff_OK _ _ ⟨404, none⟩ 503 (by decide) (by decide) rfl rfl
      (by decide) rfl rfl).2 (by decide)⟩

/-- Claim C5: when the resolver reports the requester as the existing owner,
the writer is still invoked with the requester identifiers, and re-running
the claim with identical inputs yields the same stored state. -/
theorem claim5_reclaim_own_alias_idempotent (i : Interaction) (env : Env) (r : MetaResponse)
    (hpub : publicIDMatch i.pubUserID = true)
    (hvan : vanityMatch (asciiToLower i.vanityRaw) = true)
    (hcr : env.metaReqErr = false)
    (hm : env.metaResult = some r)
    (_hst : r.status = 200)
    (hdec : r.decoded = some i.userID)
    (hwr : env.valueReqErr = false) :
    Event.valuePut (valuesApiURL ++ asciiToLower i.vanityRaw) i.pubUserID (metadataJSON i.userID)
        ∈ (onCommandRun i env).1 ∧
    ∀ st : Store, runStore (runStore st i env) i env = runStore st i env := by
  have he := onCommandRun_write_eq i env r hpub hvan hcr hm (Or.inr hdec)
  rcases writePhase_shape i env (asciiToLower i.vanityRaw) with ⟨hv, _⟩ | ⟨_, _, hw⟩ |
    ⟨_, _, hw⟩ | ⟨code, _, _, hc, hw⟩
  · simp [hwr] at hv
  · refine ⟨by rw [he, hw]; simp, fun st => ?_⟩
    have hid : ∀ s : Store, runStore s i env = s := by
      intro s
      unfold runStore
      rw [he, hw]
    rw [hid, hid]
  · refine ⟨by rw [he, hw]; simp, fun st => ?_⟩
    have hrun : ∀ s : Store, runStore s i env = (fun k =>
        if k = valuesApiURL ++ asciiToLower i.vanityRaw
        then some (i.pubUserID, metadataJSON i.userID) else s k) := by
      intro s
      unfold runStore
      rw [he, hw]
      rfl
    rw [hrun, hrun]
    funext k
    by_cases hk : k = valuesApiURL ++ asciiToLower i.vanityRaw <;> simp [hk]
  · refine ⟨by rw [he, hw]; simp, fun st => ?_⟩
    have hid : ∀ s : Store, runStore s i env = s := by
      intro s
      unfold runStore
      rw [he, hw]
    rw [hid, hid]

theorem claim5_witness :
    Event.valuePut (valuesApiURL ++ asciiToLower "abc") "deadbeef" (metadataJSON 5)
        ∈ (onCommandRun ⟨"deadbeef", "abc", 5⟩
            ⟨false, some ⟨200, some 5⟩, false, some 200⟩).1 ∧
    runStore (runStore (fun _ => none) ⟨"deadbeef", "abc", 5⟩
        ⟨false, some ⟨200, some 5⟩, false, some 200⟩) ⟨"deadbeef", "abc", 5⟩
        ⟨false, some ⟨200, some 5⟩, false, some 200⟩ =
      runStore (fun _ => none) ⟨"deadbeef", "abc", 5⟩
        ⟨false, some ⟨200, some 5⟩, false, some 200⟩ :=
  ⟨(claim5_reclaim_own_alias_idempotent _ _ ⟨200, some 5⟩ (by decide) (by decide) rfl rfl rfl
      rfl rfl).1,
   (claim5_reclaim_own_alias_idempotent _ _ ⟨200, some 5⟩ (by decide) (by decide) rfl rfl rfl
      rfl rfl).2 (fun _ => none)⟩


/-- The two multipart fields and the URL of every value write issued in a
trace: the value field is the supplied public user id, the metadata field the
JSON object built from the numeric requester id, the URL the values endpoint
of the lowercased alias. -/
lemma onCommandRun_put_fields (i : Interaction) (env : Env) (url v m : String)
    (h : Event.valuePut url v m ∈ (onCommandRun i env).1) :
    url = valuesApiURL ++ asciiToLower i.vanityRaw ∧ v = i.pubUserID ∧
      m = metadataJSON i.userID := by
  rcases onCommandRun_shape i env with ⟨_, he⟩ | ⟨_, _, he⟩ | ⟨_, _, _, he⟩ | ⟨_, _, _, _, he⟩
    | ⟨r, _, _, _, _, _, _, he⟩ | ⟨r, owner, _, _, _, _, _, _, _, he⟩ | ⟨r, _, _, _, _, _, he⟩ <;>
    rw [he] at h
  · simp at h
  · simp at h
  · simp at h
  · simp at h
  · simp at h
  · simp at h
  · rcases writePhase_shape i env (asciiToLower i.vanityRaw) with ⟨_, hw⟩ | ⟨_, _, hw⟩ |
      ⟨_, _, hw⟩ | ⟨code, _, _, hc, hw⟩ <;> rw [hw] at h <;> simp at h
    · exact h
    · exact h
    · exact h

/-- After a run whose write was answered with status 200, the store holds the
pair of fields of that write at the alias record. -/
lemma onCommandRun_claimed_store (i : Interaction) (env : Env)
    (h : (onCommandRun i env).2 = Outcome.claimed) (st : Store) :
    runStore st i env (valuesApiURL ++ asciiToLower i.vanityRaw) =
      some (i.pubUserID, metadataJSON i.userID) := by
  rcases onCommandRun_shape i env with ⟨_, he⟩ | ⟨_, _, he⟩ | ⟨_, _, _, he⟩ | ⟨_, _, _, _, he⟩
    | ⟨r, _, _, _, _, _, _, he⟩ | ⟨r, owner, _, _, _, _, _, _, _, he⟩ | ⟨r, _, _, _, _, _, he⟩
  · rw [he] at h; simp at h
  · rw [he] at h; simp at h
  · rw [he] at h; simp at h
  · rw [he] at h; simp at h
  · rw [he] at h; simp at h
  · rw [he] at h; simp at h
  · rcases writePhase_shape i env (asciiToLower i.vanityRaw) with ⟨_, hw⟩ | ⟨_, _, hw⟩ |
      ⟨_, _, hw⟩ | ⟨code, _, _, hc, hw⟩
    · rw [he, hw] at h; simp at h
    · rw [he, hw] at h; simp at h
    · unfold runStore
      rw [he, hw]
      simp
    · rw [he, hw] at h; simp at h

/-- Claim C6: every value write carries value = the supplied public id and
metadata = the JSON object embedding the decimal numeric requester id, and
after a claimed run the stored record at the alias holds that same pair, so
value and ownership metadata refer to the same requester. -/
theorem claim6_write_body_fields (i : Interaction) (env : Env) :
    (∀ url v m, Event.valuePut url v m ∈ (onCommandRun i env).1 →
      url = valuesApiURL ++ asciiToLower i.vanityRaw ∧ v = i.pubUserID ∧
        m = metadataJSON i.userID) ∧
    ((onCommandRun i env).2 = Outcome.claimed →
      ∀ st : Store, runStore st i env (valuesApiURL ++ asciiToLower i.vanityRaw) =
        some (i.pubUserID, metadataJSON i.userID)) :=
  ⟨fun url v m h => onCommandRun_put_fields i env url v m h,
   fun h st => onCommandRun_claimed_store i env h st⟩

theorem claim6_witness :
    runStore (fun _ => none) ⟨"deadbeef", "abc", 5⟩
        ⟨false, some ⟨404, none⟩, false, some 200⟩
        (valuesApiURL ++ asciiToLower "abc") =
      some ("deadbeef", metadataJSON 5) :=
  (claim6_write_body_fields _ _).2 (by decide) (fun _ => none)

/-- Claim C7: a public user id not matching the lowercase-hex pattern is
rejected with the validation reply and no other event (no acknowledgment, no
network call); a matching one never ends in that rejection. -/
theorem claim7_requesterID_validation (i : Interaction) (env : Env) :
    (publicIDMatch i.pubUserID = false →
      onCommandRun i env = ([Event.createMessage invalidUserIDMsg true],
        Outcome.rejectedUserID)) ∧
    (publicIDMatch i.pubUserID = true → (onCommandRun i env).2 ≠ Outcome.rejectedUserID) := by
  constructor
  · intro h
    simp [onCommandRun, h]
  · intro h
    rcases onCommandRun_shape i env with ⟨hp, he⟩ | ⟨_, _, he⟩ | ⟨_, _, _, he⟩ | ⟨_, _, _, _, he⟩
      | ⟨r, _, _, _, _, _, _, he⟩ | ⟨r, owner, _, _, _, _, _, _, _, he⟩ | ⟨r, _, _, _, _, _, he⟩
    · rw [h] at hp; cases hp
    · rw [he]; simp
    · rw [he]; simp
    · rw [he]; simp
    · rw [he]; simp
    · rw [he]; simp
    · rw [he]
      rcases writePhase_shape i env (asciiToLower i.vanityRaw) with ⟨_, hw⟩ | ⟨_, _, hw⟩ |
        ⟨_, _, hw⟩ | ⟨code, _, _, _, hw⟩ <;> rw [hw] <;> simp

theorem claim7_witness :
    (onCommandRun ⟨"XYZ", "abc", 5⟩ ⟨false, some ⟨404, none⟩, false, some 200⟩ =
      ([Event.createMessage invalidUserIDMsg true], Outcome.rejectedUserID)) ∧
    (onCommandRun ⟨"deadbeef", "abc", 5⟩
        ⟨false, some ⟨404, none⟩, false, some 200⟩).2 ≠ Outcome.rejectedUserID :=
  ⟨(claim7_requesterID_validation _ _).1 (by decide),
   (claim7_requesterID_validation _ _).2 (by decide)⟩

/-- Claim C8: program order of one invocation: the acknowledgment occurs only
when both validations passed, no metadata read occurs before the
acknowledgment, and no value write occurs before the metadata read. -/
theorem claim8_step_ordering (i : Interaction) (env : Env) :
    (Event.deferAck ∈ (onCommandRun i env).1 →
      publicIDMatch i.pubUserID = true ∧ vanityMatch (asciiToLower i.vanityRaw) = true) ∧
    precededBy isAck isMetaGet (onCommandRun i env).1 = true ∧
    precededBy isMetaGet isValuePut (onCommandRun i env).1 = true := by
  rcases onCommandRun_shape i env with ⟨hp, he⟩ | ⟨hp, hv, he⟩ | ⟨hp, hv, _, he⟩
    | ⟨hp, hv, _, _, he⟩ | ⟨r, hp, hv, _, _, _, _, he⟩ | ⟨r, owner, hp, hv, _, _, _, _, _, he⟩
    | ⟨r, hp, hv, _, _, _, he⟩ <;> rw [he]
  · simp [precededBy, isAck, isMetaGet, isValuePut]
  · simp [precededBy, isAck, isMetaGet, isValuePut]
  · exact ⟨fun _ => ⟨hp, hv⟩, by simp [precededBy, isAck, isMetaGet, isValuePut]⟩
  · exact ⟨fun _ => ⟨hp, hv⟩, by simp [precededBy, isAck, isMetaGet, isValuePut]⟩
  · exact ⟨fun _ => ⟨hp, hv⟩, by simp [precededBy, isAck, isMetaGet, isValuePut]⟩
  · exact ⟨fun _ => ⟨hp, hv⟩, by simp [precededBy, isAck, isMetaGet, isValuePut]⟩
  · exact ⟨fun _ => ⟨hp, hv⟩, by simp [precededBy, isAck, isMetaGet, isValuePut]⟩

theorem claim8_witness :
    publicIDMatch "deadbeef" = true ∧ vanityMatch (asciiToLower "abc") = true :=
  (claim8_step_ordering ⟨"deadbeef", "abc", 5⟩
    ⟨false, some ⟨404, none⟩, false, some 200⟩).1 (by decide)


/-- The terminal outcome of the write phase does not depend on the
interaction or the alias key, only on the environment. -/
lemma writePhase_snd_eq (i j : Interaction) (env : Env) (v w : String) :
    (writePhase i env v).2 = (writePhase j env w).2 := by
  rcases writePhase_shape i env v with ⟨h1, hw⟩ | ⟨h1, h2, hw⟩ | ⟨h1, h2, hw⟩ |
    ⟨code, h1, h2, hc, hw⟩ <;>
  rcases writePhase_shape j env w with ⟨g1, gw⟩ | ⟨g1, g2, gw⟩ | ⟨g1, g2, gw⟩ |
    ⟨dode, g1, g2, gc, gw⟩ <;>
  rw [hw, gw] <;> simp_all

/-- Claim C9: for a fixed invoking user, alias and environment, the terminal
branch (reject, abandon, conflict, write outcome) does not depend on which
valid public user id was supplied. -/
theorem claim9_public_id_noninterference (env : Env) (i j : Interaction)
    (hu : i.userID = j.userID) (hv : i.vanityRaw = j.vanityRaw)
    (hi : publicIDMatch i.pubUserID = true) (hj : publicIDMatch j.pubUserID = true) :
    (onCommandRun i env).2 = (onCommandRun j env).2 := by
  rcases i with ⟨pi, vi, ui⟩
  rcases j with ⟨pj, vj, uj⟩
  simp only at hu hv hi hj
  subst hu
  subst hv
  cases hvan : vanityMatch (asciiToLower vi)
  · simp [onCommandRun, hi, hj, hvan]
  · cases hmre : env.metaReqErr
    · cases hmr : env.metaResult with
      | none => simp [onCommandRun, hi, hj, hvan, hmre, hmr]
      | some r =>
        by_cases hs : r.status = 200
        · cases hd : r.decoded with
          | none => simp [onCommandRun, hi, hj, hvan, hmre, hmr, hs, hd]
          | some owner =>
            by_cases how : owner = ui
            · subst how
              have hwp := writePhase_snd_eq ⟨pi, vi, owner⟩ ⟨pj, vi, owner⟩ env
                (asciiToLower vi) (asciiToLower vi)
              simp [onCommandRun, hi, hj, hvan, hmre, hmr, hs, hd, hwp]
            · simp [onCommandRun, hi, hj, hvan, hmre, hmr, hs, hd, how]
        · have hwp := writePhase_snd_eq ⟨pi, vi, ui⟩ ⟨pj, vi, ui⟩ env
            (asciiToLower vi) (asciiToLower vi)
          simp [onCommandRun, hi, hj, hvan, hmre, hmr, hs, hwp]
    · simp [onCommandRun, hi, hj, hvan, hmre]

theorem claim9_witness :
    (onCommandRun ⟨"aa", "XY", 7⟩ ⟨false, some ⟨200, some 7⟩, false, some 200⟩).2 =
    (onCommandRun ⟨"bb", "XY", 7⟩ ⟨false, some ⟨200, some 7⟩, false, some 200⟩).2 :=
  claim9_public_id_noninterference _ _ _ rfl rfl (by decide) (by decide)

/-- Every metadata read in a trace addresses the lowercased alias key. -/
lemma onCommandRun_metaGet_mem (i : Interaction) (env : Env) (url : String)
    (h : Event.metaGet url ∈ (onCommandRun i env).1) :
    url = metadataApiURL ++ asciiToLower i.vanityRaw := by
  rcases onCommandRun_shape i env with ⟨_, he⟩ | ⟨_, _, he⟩ | ⟨_, _, _, he⟩ | ⟨_, _, _, _, he⟩
    | ⟨r, _, _, _, _, _, _, he⟩ | ⟨r, owner, _, _, _, _, _, _, _, he⟩ | ⟨r, _, _, _, _, _, he⟩ <;>
    rw [he] at h
  · simp at h
  · simp at h
  · simp at h
  · simp at h
    exact h
  · simp at h
    exact h
  · simp at h
    exact h
  · rcases writePhase_shape i env (asciiToLower i.vanityRaw) with ⟨_, hw⟩ | ⟨_, _, hw⟩ |
      ⟨_, _, hw⟩ | ⟨code, _, _, _, hw⟩ <;> rw [hw] at h <;> simp at h <;> exact h

/-- Lists of characters related pointwise by equal lowercase forms have equal
lowercased images. -/
lemma map_asciiLowerChar_congr (as bs : List Char)
    (h : List.Forall₂ (fun a b => asciiLowerChar a = asciiLowerChar b) as bs) :
    as.map asciiLowerChar = bs.map asciiLowerChar := by
  induction h with
  | nil => rfl
  | cons hab _ ih => simp only [List.map_cons, hab, ih]

/-- Changing only the letter case of characters leaves the lowercased string
unchanged. -/
lemma asciiToLower_congr (s t : String)
    (h : List.Forall₂ (fun a b => asciiLowerChar a = asciiLowerChar b) s.toList t.toList) :
    asciiToLower s = asciiToLower t := by
  unfold asciiToLower
  exact congrArg String.mk (map_asciiLowerChar_congr _ _ h)


/-- Claim C10: every metadata read and every value write addresses the store
at the lowercased form of the supplied alias, so two invocations whose
aliases differ only in letter case address the same alias record. -/
theorem claim10_lowercased_alias_key (i j : Interaction) (env : Env) :
    (∀ url, Event.metaGet url ∈ (onCommandRun i env).1 →
      url = metadataApiURL ++ asciiToLower i.vanityRaw) ∧
    (∀ url v m, Event.valuePut url v m ∈ (onCommandRun i env).1 →
      url = valuesApiURL ++ asciiToLower i.vanityRaw) ∧
    (List.Forall₂ (fun a b => asciiLowerChar a = asciiLowerChar b)
        i.vanityRaw.toList j.vanityRaw.toList →
      ∀ u1 u2, Event.metaGet u1 ∈ (onCommandRun i env).1 →
        Event.metaGet u2 ∈ (onCommandRun j env).1 → u1 = u2) := by
  refine ⟨fun url h => onCommandRun_metaGet_mem i env url h,
          fun url v m h => (onCommandRun_put_fields i env url v m h).1,
          fun hcase u1 u2 h1 h2 => ?_⟩
  rw [onCommandRun_metaGet_mem i env u1 h1, onCommandRun_metaGet_mem j env u2 h2,
    asciiToLower_congr i.vanityRaw j.vanityRaw hcase]

theorem claim10_witness :
    metadataApiURL ++ asciiToLower "AbC" = metadataApiURL ++ asciiToLower "abc" :=
  (claim10_lowercased_alias_key ⟨"aa", "AbC", 7⟩ ⟨"aa", "abc", 7⟩
      ⟨false, some ⟨404, none⟩, false, some 200⟩).2.2 (by decide) _ _ (by decide) (by decide)

end VIPVanity
